import Mathlib

/-!
Verification development for the KCPlus repository.

The repository contains a single header, src/kcplus.hpp: a C++ wrapper class
KCPSession around the external ikcp transport engine (ikcp.c / ikcp.h is an
external dependency and is not part of this repository).  The wrapper layer
(constructor, input, receive, send, update, flush, the probing functions and
the configuration setters, plus the raw output adapter) is transcribed below
directly from src/kcplus.hpp.  The underlying engine functions (ikcp_create,
ikcp_input, ikcp_send, ikcp_flush, ikcp_update, ikcp_peeksize, ikcp_recv,
ikcp_nodelay, ikcp_wndsize) are modelled from the specification, as noted on
each definition.

Machine integers: the C IUINT32 values (connection identifier, timestamps,
sequence numbers, lengths) are modelled as Nat; the wire codec reduces each
header field modulo 2^8 per byte, so field bounds (value < 2^32, etc.) appear
as explicit hypotheses where a decode must invert an encode.  Bytes are
modelled as Nat; the encoder emits header byte values below 256 and forwards
payload bytes unchanged.  Fallible operations return Option or Except; a C++
exception is an Except.error, a failed assert is Option.none.
-/

namespace KCPlus

/-- A byte value.  Header bytes produced by the encoder are below 256;
payload bytes are caller data and are forwarded unchanged. -/
abbrev Byte := Nat

/-- Command value of a data (push) segment. -/
def cmdPush : Nat := 81

/-- Command value of a pure acknowledgment segment. -/
def cmdAck : Nat := 82

/-- Modelled from the spec: the wire unit of the engine (spec section 3):
connection identifier, command type, remaining-fragment count (0 = last
fragment of its message), advertised receive window, sender timestamp,
sequence number, cumulative ack of the sender, and payload bytes.  The
payload length field of the wire format is derived from the payload list. -/
structure Segment where
  conv : Nat
  cmd : Nat
  frg : Nat
  wnd : Nat
  ts : Nat
  sn : Nat
  una : Nat
  payload : List Byte
deriving DecidableEq, Repr

/-- Two-byte little-endian encoding of a 16-bit field. -/
def encode16 (n : Nat) : List Byte := [n % 256, n / 256 % 256]

/-- Decode a two-byte little-endian field. -/
def decode16 (b0 b1 : Byte) : Nat := b0 + 256 * b1

/-- Four-byte little-endian encoding of a 32-bit field. -/
def encode32 (n : Nat) : List Byte :=
  [n % 256, n / 256 % 256, n / 65536 % 256, n / 16777216 % 256]

/-- Decode a four-byte little-endian field. -/
def decode32 (b0 b1 b2 b3 : Byte) : Nat :=
  b0 + 256 * b1 + 65536 * b2 + 16777216 * b3

/-- Modelled from the spec: segment encoder (spec section 4.1): a fixed
layout 24-byte header (conv 4, cmd 1, frg 1, wnd 2, ts 4, sn 4, una 4,
payload length 4) followed by the payload bytes. -/
def encodeSeg (s : Segment) : List Byte :=
  encode32 s.conv ++ [s.cmd % 256, s.frg % 256] ++ encode16 s.wnd ++
    encode32 s.ts ++ encode32 s.sn ++ encode32 s.una ++
    encode32 s.payload.length ++ s.payload

/-- Modelled from the spec: segment decoder (spec section 4.1): fails (soft
drop) when the byte length is shorter than the 24-byte header, when the
declared payload length does not match the remaining bytes, or when the
connection identifier does not match the identifier of the session. -/
def decodeSeg (conv : Nat) (bytes : List Byte) : Option Segment :=
  match bytes with
  | c0 :: c1 :: c2 :: c3 :: cm :: fr :: w0 :: w1 ::
    t0 :: t1 :: t2 :: t3 :: s0 :: s1 :: s2 :: s3 ::
    u0 :: u1 :: u2 :: u3 :: l0 :: l1 :: l2 :: l3 :: rest =>
    if decode32 c0 c1 c2 c3 ≠ conv then none
    else if decode32 l0 l1 l2 l3 ≠ rest.length then none
    else some
      { conv := decode32 c0 c1 c2 c3, cmd := cm, frg := fr,
        wnd := decode16 w0 w1, ts := decode32 t0 t1 t2 t3,
        sn := decode32 s0 s1 s2 s3, una := decode32 u0 u1 u2 u3,
        payload := rest }
  | _ => none

/-- Slice a byte list into chunks of size m + 1; the fuel argument bounds the
recursion and is instantiated with the length of the list. -/
def chunksGo : Nat → Nat → List Byte → List (List Byte)
  | _, _, [] => []
  | 0, _, _ :: _ => []
  | fuel + 1, m, x :: xs =>
    (x :: xs).take (m + 1) :: chunksGo fuel m ((x :: xs).drop (m + 1))

/-- Slice a byte list into chunks of at most mss bytes (mss assumed positive). -/
def chunks (mss : Nat) (data : List Byte) : List (List Byte) :=
  chunksGo data.length (mss - 1) data

/-- Modelled from the spec: fragment payloads of one application message
(spec section 4.2): a message is converted into one or more fragments of at
most mss bytes; an empty message still produces one (empty) fragment. -/
def fragPayloads (mss : Nat) (data : List Byte) : List (List Byte) :=
  if data = [] then [[]] else chunks mss data

/-- Modelled from the spec: tag fragment payloads with descending remaining
fragment counts (spec section 4.2); the final fragment carries count 0.
Window, timestamp, sequence number and cumulative ack are filled in when the
segment is admitted into the send window at flush time. -/
def tagFrags (conv : Nat) : List (List Byte) → List Segment
  | [] => []
  | c :: cs =>
    { conv := conv, cmd := cmdPush, frg := cs.length, wnd := 0, ts := 0,
      sn := 0, una := 0, payload := c } :: tagFrags conv cs

/-- Modelled from the spec: per-connection session state of the engine (spec
section 3): send and receive sides of the sliding window, the four runtime
tunables driven by ikcp_nodelay, the window configuration, the reassembly
accumulator of the receiver, and the pending acknowledgment list.  The RTT
estimator state and the per-segment retransmission timers (spec section 4.4)
are not modelled: none of the verified claims depends on retransmission
timing. -/
structure KcpState where
  conv : Nat
  mtu : Nat
  mss : Nat
  sndUna : Nat
  sndNext : Nat
  rcvNext : Nat
  sndWnd : Nat
  rcvWnd : Nat
  rmtWnd : Nat
  cwnd : Nat
  nodelay : Nat
  interval : Nat
  fastresend : Nat
  nc : Nat
  current : Nat
  sndQueue : List Segment
  sndBuf : List Segment
  rcvBuf : List Segment
  rcvQueue : List (List Byte)
  fragAcc : List (List Byte)
  acklist : List (Nat × Nat)
deriving DecidableEq, Repr

/-- Default maximum segment payload size: default MTU 1400 minus the 24-byte
header. -/
def defaultMss : Nat := 1376

/-- Modelled from the spec: ikcp_create (external dependency, not in this
repository).  Fresh session state: empty buffers, sequence counters at zero,
default MTU 1400 (documented in src/kcplus.hpp line 221), default internal
interval 100 ms (documented in src/kcplus.hpp line 288), default windows
(send 32, receive 128), congestion control enabled with an initial
congestion window of one segment (slow start, spec section 4.6). -/
def ikcp_create (conv : Nat) : KcpState :=
  { conv := conv, mtu := 1400, mss := defaultMss,
    sndUna := 0, sndNext := 0, rcvNext := 0,
    sndWnd := 32, rcvWnd := 128, rmtWnd := 128, cwnd := 1,
    nodelay := 0, interval := 100, fastresend := 0, nc := 0, current := 0,
    sndQueue := [], sndBuf := [], rcvBuf := [],
    rcvQueue := [], fragAcc := [], acklist := [] }

/-- Modelled from the spec: ikcp_send (spec sections 4.2 and 6): admits an
application message unconditionally into the send queue, fragmented into
segments tagged with descending remaining-fragment counts. -/
def ikcp_send (k : KcpState) (data : List Byte) : KcpState :=
  { k with sndQueue := k.sndQueue ++ tagFrags k.conv (fragPayloads k.mss data) }

/-- Modelled from the spec: the effective send window (spec section 4.2): a
segment is admitted only when allowed by both the advertised remote receive
window and, when congestion control is enabled (nc = 0), the local
congestion window; whichever is smaller bounds the outstanding segments. -/
def effectiveWnd (k : KcpState) : Nat :=
  if k.nc = 0 then min (min k.sndWnd k.rmtWnd) k.cwnd
  else min k.sndWnd k.rmtWnd

/-- Result of admitting queued segments into the send window. -/
structure AdmitResult where
  admitted : List Segment
  remaining : List Segment
  sndNext : Nat
deriving DecidableEq, Repr

/-- Modelled from the spec: move segments from the send queue into the
in-flight buffer while the next sequence number is below the window limit,
assigning each its sequence number, cumulative ack, advertised window and
timestamp (spec section 4.2). -/
def admitQueue (rcvNext rcvWnd current : Nat) :
    List Segment → Nat → Nat → AdmitResult
  | [], nxt, _ => ⟨[], [], nxt⟩
  | s :: rest, nxt, lim =>
    if nxt < lim then
      let r := admitQueue rcvNext rcvWnd current rest (nxt + 1) lim
      ⟨{ s with sn := nxt, una := rcvNext, wnd := rcvWnd, ts := current } ::
        r.admitted, r.remaining, r.sndNext⟩
    else ⟨[], s :: rest, nxt⟩

/-- Result of a flush: the new engine state and the emitted datagrams, one
encoded segment per sink invocation. -/
structure FlushResult where
  st : KcpState
  out : List (List Byte)
deriving DecidableEq, Repr

/-- Modelled from the spec: ikcp_flush (spec sections 4.7 and 6): emits every
pending pure-acknowledgment segment and every newly admitted data segment,
one full encoded segment per output-sink invocation, never batching several
segments into one call; the acknowledgment list is cleared.  Retransmission
of segments already in flight is timer-driven (spec section 4.4) and is not
modelled. -/
def ikcp_flush (k : KcpState) : FlushResult :=
  let ackSegs := k.acklist.map (fun a =>
    ({ conv := k.conv, cmd := cmdAck, frg := 0, wnd := k.rcvWnd, ts := a.2,
       sn := a.1, una := k.rcvNext, payload := [] } : Segment))
  let r := admitQueue k.rcvNext k.rcvWnd k.current k.sndQueue k.sndNext
    (k.sndUna + effectiveWnd k)
  let st1 : KcpState :=
    { k with acklist := [], sndQueue := r.remaining,
             sndBuf := k.sndBuf ++ r.admitted, sndNext := r.sndNext }
  { st := st1, out := (ackSegs ++ r.admitted).map encodeSeg }

/-- Modelled from the spec: ikcp_update (spec section 4.7): advances the
internal clock to the given timestamp and performs a flush. -/
def ikcp_update (k : KcpState) (t : Nat) : FlushResult :=
  ikcp_flush { k with current := t }

/-- Insert a segment into the receive buffer ordered by sequence number,
discarding it when a segment with the same sequence number is already
buffered (duplicate, spec section 4.3). -/
def insertSorted (seg : Segment) : List Segment → List Segment
  | [] => [seg]
  | s :: rest =>
    if seg.sn < s.sn then seg :: s :: rest
    else if seg.sn = s.sn then s :: rest
    else s :: insertSorted seg rest

/-- Result of draining the contiguous run at the front of the receive
buffer. -/
structure DrainResult where
  buf : List Segment
  rcvNext : Nat
  fragAcc : List (List Byte)
  queue : List (List Byte)
deriving DecidableEq, Repr

/-- Modelled from the spec: drain the contiguous run starting exactly at the
next expected sequence number (spec section 4.3): each drained fragment
payload is appended to the reassembly accumulator; when a fragment with
remaining count 0 is drained the accumulated message is complete and is
appended to the receive queue. -/
def drainBuf : List Segment → Nat → List (List Byte) → List (List Byte) →
    DrainResult
  | [], nxt, acc, q => ⟨[], nxt, acc, q⟩
  | s :: rest, nxt, acc, q =>
    if s.sn = nxt then
      if s.frg = 0 then
        drainBuf rest (nxt + 1) [] (q ++ [(acc ++ [s.payload]).flatten])
      else drainBuf rest (nxt + 1) (acc ++ [s.payload]) q
    else ⟨s :: rest, nxt, acc, q⟩

/-- Modelled from the spec: cumulative acknowledgment (spec section 4.5):
every in-flight segment with sequence number strictly below the acknowledged
value is removed; the lowest unacknowledged sequence number is recomputed
from the head of the in-flight buffer. -/
def parseUna (k : KcpState) (una : Nat) : KcpState :=
  let buf := k.sndBuf.filter (fun s => una ≤ s.sn)
  { k with sndBuf := buf,
           sndUna := match buf with
                     | [] => k.sndNext
                     | s :: _ => s.sn }

/-- Modelled from the spec: selective acknowledgment (spec section 4.5):
removes exactly the acknowledged in-flight segment.  The skip counters that
drive fast retransmission are not modelled: no verified claim depends on
them. -/
def parseAck (k : KcpState) (sn : Nat) : KcpState :=
  let buf := k.sndBuf.filter (fun s => s.sn ≠ sn)
  { k with sndBuf := buf,
           sndUna := match buf with
                     | [] => k.sndNext
                     | s :: _ => s.sn }

/-- Modelled from the spec: receive-side handling of a data segment (spec
section 4.3): segments at or beyond the right edge of the receive window are
dropped (backpressure); segments inside the window are acknowledged;
duplicates of already delivered sequence numbers are discarded; the rest are
inserted into the receive buffer and the contiguous run at the next expected
sequence number is drained and reassembled. -/
def parseData (k : KcpState) (seg : Segment) : KcpState :=
  if k.rcvNext + k.rcvWnd ≤ seg.sn then k
  else
    let k1 := { k with acklist := k.acklist ++ [(seg.sn, seg.ts)] }
    if seg.sn < k1.rcvNext then k1
    else
      let r := drainBuf (insertSorted seg k1.rcvBuf) k1.rcvNext k1.fragAcc
        k1.rcvQueue
      { k1 with rcvBuf := r.buf, rcvNext := r.rcvNext, fragAcc := r.fragAcc,
                rcvQueue := r.queue }

/-- Modelled from the spec: ikcp_input (spec sections 4.1, 4.3, 4.5): decode
one datagram; malformed input is silently dropped; every decoded segment
updates the stored remote window and applies its cumulative ack; data
segments go to the reassembler, acknowledgment segments to the ack
processor; window probe commands leave the modelled state unchanged. -/
def ikcp_input (k : KcpState) (bytes : List Byte) : KcpState :=
  match decodeSeg k.conv bytes with
  | none => k
  | some seg =>
    let k1 := parseUna { k with rmtWnd := seg.wnd } seg.una
    if seg.cmd = cmdPush then parseData k1 seg
    else if seg.cmd = cmdAck then parseAck k1 seg.sn
    else k1

/-- Modelled from the spec: ikcp_peeksize: length of the next fully
reassembled message, or -1 when no complete message is queued. -/
def ikcp_peeksize (k : KcpState) : Int :=
  match k.rcvQueue with
  | [] => -1
  | m :: _ => (m.length : Int)

/-- Result of ikcp_recv: the new state, the int return value (message length
or -1), and the bytes written into the caller buffer. -/
structure RecvResult where
  st : KcpState
  result : Int
  data : List Byte
deriving DecidableEq, Repr

/-- Modelled from the spec: ikcp_recv: dequeues the next fully reassembled
message, returning its length and its bytes; returns -1 and leaves the state
unchanged when no message is queued. -/
def ikcp_recv (k : KcpState) : RecvResult :=
  match k.rcvQueue with
  | [] => ⟨k, -1, []⟩
  | m :: rest => ⟨{ k with rcvQueue := rest }, (m.length : Int), m⟩

/-- Modelled from the spec: ikcp_nodelay: each of the four runtime tunables
(nodelay mode, internal interval, fast-resend threshold, congestion-control
disable flag) is updated exactly when the corresponding argument is
non-negative; a negative argument leaves the tunable unchanged (the wrapper
passes -1 for fields it does not intend to change). -/
def ikcp_nodelay (k : KcpState) (nodelay interval resend nc : Int) : KcpState :=
  { k with
    nodelay := if 0 ≤ nodelay then nodelay.toNat else k.nodelay,
    interval := if 0 ≤ interval then interval.toNat else k.interval,
    fastresend := if 0 ≤ resend then resend.toNat else k.fastresend,
    nc := if 0 ≤ nc then nc.toNat else k.nc }

/-- Modelled from the spec: ikcp_wndsize: each window size is updated exactly
when the corresponding argument is positive; the wrapper passes 0 for the
window it does not intend to change. -/
def ikcp_wndsize (k : KcpState) (sndwnd rcvwnd : Int) : KcpState :=
  { k with
    sndWnd := if 0 < sndwnd then sndwnd.toNat else k.sndWnd,
    rcvWnd := if 0 < rcvwnd then rcvwnd.toNat else k.rcvWnd }

/-- High-level packet returned by receive (src/kcplus.hpp lines 33-37): data
is none and size is 0 when no high-level packet is available; otherwise data
holds the freshly allocated caller-owned buffer contents. -/
structure Packet where
  data : Option (List Byte)
  size : Nat
deriving DecidableEq, Repr

/-- The wrapper session (src/kcplus.hpp lines 42-352 and its private members
at lines 331-335).  The two std::function members are modelled by whether a
callable target is installed (an empty std::function is false); invocations
of the callbacks are reported as explicit traces by the operations below. -/
structure KCPSession where
  mKcp : KcpState
  mOutputFunc : Bool
  mAsyncMode : Bool
  mReceiveFunc : Bool
deriving DecidableEq, Repr

/-- Constructor (src/kcplus.hpp lines 53-57): creates the engine state and
initializes mOutputFunc to null; mReceiveFunc is a default-constructed
(empty) std::function.  The bool member mAsyncMode is NOT initialized by the
constructor: its indeterminate initial value is made explicit here as the
asyncModeResidue parameter. -/
def KCPSession.create (conv : Nat) (asyncModeResidue : Bool) : KCPSession :=
  { mKcp := ikcp_create conv, mOutputFunc := false,
    mAsyncMode := asyncModeResidue, mReceiveFunc := false }

/-- setAsyncMode (src/kcplus.hpp lines 72-75). -/
def KCPSession.setAsyncMode (s : KCPSession) (b : Bool) : KCPSession :=
  { s with mAsyncMode := b }

/-- setReceiveCallback (src/kcplus.hpp lines 81-84): f records whether the
installed std::function has a callable target. -/
def KCPSession.setReceiveCallback (s : KCPSession) (f : Bool) : KCPSession :=
  { s with mReceiveFunc := f }

/-- setOutputFunction (src/kcplus.hpp lines 90-93): f records whether the
installed std::function has a callable target. -/
def KCPSession.setOutputFunction (s : KCPSession) (f : Bool) : KCPSession :=
  { s with mOutputFunc := f }

/-- hasReceivablePacket (src/kcplus.hpp lines 114-117): ikcp_peeksize >= 0. -/
def KCPSession.hasReceivablePacket (s : KCPSession) : Bool :=
  decide (0 ≤ ikcp_peeksize s.mKcp)

/-- nextPacketSize (src/kcplus.hpp lines 126-130): the peeked size when
non-negative, otherwise 0. -/
def KCPSession.nextPacketSize (s : KCPSession) : Nat :=
  let size := ikcp_peeksize s.mKcp
  if 0 ≤ size then size.toNat else 0

/-- The body of receive (src/kcplus.hpp lines 140-161), parametrized by the
values the engine returns: the peeked size, the int result of ikcp_recv and
the bytes it wrote.  A packet of nulls is returned when nothing is
receivable; otherwise a buffer of the peeked size is allocated and the
ikcp_recv result is compared against that size, throwing the internal
inconsistency exception on mismatch (the int result is compared against the
unsigned size, as in the source). -/
def receiveCore (peeksize recvResult : Int) (recvData : List Byte) :
    Except String Packet :=
  if 0 ≤ peeksize then
    let packetSize : Nat := (if 0 ≤ peeksize then peeksize.toNat else 0)
    if recvResult ≠ (packetSize : Int) then
      .error "receive: Internal inconsistency error!"
    else .ok { data := some recvData, size := packetSize }
  else .ok { data := none, size := 0 }

/-- receive (src/kcplus.hpp lines 140-161): receiveCore applied to the
engine results, threading the engine state.  When nothing is receivable the
source does not call ikcp_recv; the model may apply ikcp_recv there because
it leaves the state unchanged on an empty queue, exactly as ikcp_recv
returns -1 without mutation. -/
def KCPSession.receive (s : KCPSession) : Except String (KCPSession × Packet) :=
  match receiveCore (ikcp_peeksize s.mKcp) (ikcp_recv s.mKcp).result
      (ikcp_recv s.mKcp).data with
  | .error e => .error e
  | .ok p => .ok ({ s with mKcp := (ikcp_recv s.mKcp).st }, p)

/-- send (src/kcplus.hpp lines 174-177): forwards to ikcp_send, ignoring its
return value; the wrapper surfaces no failure (total function, no Except). -/
def KCPSession.send (s : KCPSession) (data : List Byte) : KCPSession :=
  { s with mKcp := ikcp_send s.mKcp data }

/-- input (src/kcplus.hpp lines 100-107): applies the datagram to the engine
and then, when async mode is on and a packet is receivable, passes the
received packet to the receive callback.  The returned list is the trace of
callback invocations performed before input returns.  Calling an empty
std::function throws std::bad_function_call; note the source evaluates
receive() before the call is attempted. -/
def KCPSession.input (s : KCPSession) (bytes : List Byte) :
    Except String (KCPSession × List Packet) :=
  let s1 : KCPSession := { s with mKcp := ikcp_input s.mKcp bytes }
  if s1.mAsyncMode && s1.hasReceivablePacket then
    match s1.receive with
    | .error e => .error e
    | .ok (s2, p) =>
      if s1.mReceiveFunc then .ok (s2, [p])
      else .error "bad_function_call"
  else .ok (s1, [])

/-- mOutputFuncRaw (src/kcplus.hpp lines 338-344): the static adapter handed
to the engine.  It asserts that the installed output function is non-null
(none models the assert firing), then invokes it with the buffer and its
length unchanged, and returns 0 to the engine (the sink adapter always
reports success; failures are never retried). -/
def mOutputFuncRaw (outputFunc : Bool) (buf : List Byte) :
    Option ((List Byte × Nat) × Int) :=
  if outputFunc then some ((buf, buf.length), 0) else none

/-- Route every emitted datagram through the adapter, in order; the trace
records each sink invocation (arguments and the int result reported back to
the engine); none when the assert fires. -/
def routeOutput (outputFunc : Bool) :
    List (List Byte) → Option (List ((List Byte × Nat) × Int))
  | [] => some []
  | b :: rest =>
    match mOutputFuncRaw outputFunc b, routeOutput outputFunc rest with
    | some c, some cs => some (c :: cs)
    | _, _ => none

/-- flush (src/kcplus.hpp lines 200-203): forwards to ikcp_flush; every
emission is routed through the adapter installed by the constructor. -/
def KCPSession.flush (s : KCPSession) :
    Option (KCPSession × List ((List Byte × Nat) × Int)) :=
  let r := ikcp_flush s.mKcp
  match routeOutput s.mOutputFunc r.out with
  | none => none
  | some calls => some ({ s with mKcp := r.st }, calls)

/-- update (src/kcplus.hpp lines 190-193): forwards to ikcp_update; every
emission is routed through the adapter installed by the constructor. -/
def KCPSession.update (s : KCPSession) (t : Nat) :
    Option (KCPSession × List ((List Byte × Nat) × Int)) :=
  let r := ikcp_update s.mKcp t
  match routeOutput s.mOutputFunc r.out with
  | none => none
  | some calls => some ({ s with mKcp := r.st }, calls)

/-- NotChanged sentinel (src/kcplus.hpp line 351). -/
def NotChanged : Int := -1

/-- setPropertiesPrivate (src/kcplus.hpp lines 346-349). -/
def KCPSession.setPropertiesPrivate (s : KCPSession)
    (nodelay interval resend nc : Int) : KCPSession :=
  { s with mKcp := ikcp_nodelay s.mKcp nodelay interval resend nc }

/-- setNodelay (src/kcplus.hpp lines 281-284). -/
def KCPSession.setNodelay (s : KCPSession) (b : Bool) : KCPSession :=
  s.setPropertiesPrivate (if b then 1 else 0) NotChanged NotChanged NotChanged

/-- setInternalInterval (src/kcplus.hpp lines 290-293). -/
def KCPSession.setInternalInterval (s : KCPSession) (n : Int) : KCPSession :=
  s.setPropertiesPrivate NotChanged n NotChanged NotChanged

/-- setFastResendThreshold (src/kcplus.hpp lines 300-303). -/
def KCPSession.setFastResendThreshold (s : KCPSession) (n : Int) : KCPSession :=
  s.setPropertiesPrivate NotChanged NotChanged n NotChanged

/-- setCongestionControl (src/kcplus.hpp lines 309-312): note the inversion,
nc = 0 means congestion control enabled. -/
def KCPSession.setCongestionControl (s : KCPSession) (b : Bool) : KCPSession :=
  s.setPropertiesPrivate NotChanged NotChanged NotChanged (if b then 0 else 1)

/-- setMaxSendWindowSize (src/kcplus.hpp lines 236-239): passes 0 for the
receive window. -/
def KCPSession.setMaxSendWindowSize (s : KCPSession) (w : Int) : KCPSession :=
  { s with mKcp := ikcp_wndsize s.mKcp w 0 }

/-- setMaxReceiveWindowSize (src/kcplus.hpp lines 246-249): passes 0 for the
send window. -/
def KCPSession.setMaxReceiveWindowSize (s : KCPSession) (w : Int) : KCPSession :=
  { s with mKcp := ikcp_wndsize s.mKcp 0 w }

/-- Feed a list of datagrams into a session through input, in order,
propagating any exception. -/
def feedAll : KCPSession → List (List Byte) → Except String KCPSession
  | s, [] => .ok s
  | s, b :: rest =>
    match s.input b with
    | .error e => .error e
    | .ok (t, _) => feedAll t rest

/-- The segments a fresh sender emits for fragment payloads cs: push
segments with the given window, timestamp and cumulative ack, consecutive
sequence numbers from startSn, and descending remaining-fragment counts. -/
def sentSegs (conv w t u startSn : Nat) : List (List Byte) → List Segment
  | [] => []
  | c :: cs =>
    { conv := conv, cmd := cmdPush, frg := cs.length, wnd := w, ts := t,
      sn := startSn, una := u, payload := c } ::
      sentSegs conv w t u (startSn + 1) cs

/-- Acknowledgment-list entries produced by receiving len consecutive
segments with timestamp t starting at sequence number n. -/
def ackEntries : Nat → Nat → Nat → List (Nat × Nat)
  | _, _, 0 => []
  | n, t, len + 1 => (n, t) :: ackEntries (n + 1) t len

end KCPlus

namespace KCPlus

/-! ## Concrete fixture states used by witnesses and counterexamples -/

/-- A one-byte application message encoded as a single data segment for
connection 1 (sequence number 0, final fragment). -/
def pushDatagram : List Byte :=
  encodeSeg { conv := 1, cmd := cmdPush, frg := 0, wnd := 128, ts := 0,
              sn := 0, una := 0, payload := [7] }

/-- A zero-length application message encoded as a single data segment for
connection 1. -/
def emptyDatagram : List Byte :=
  encodeSeg { conv := 1, cmd := cmdPush, frg := 0, wnd := 128, ts := 0,
              sn := 0, una := 0, payload := [] }

/-- A two-byte application message encoded as a single data segment for
connection 1. -/
def twoByteDatagram : List Byte :=
  encodeSeg { conv := 1, cmd := cmdPush, frg := 0, wnd := 128, ts := 0,
              sn := 0, una := 0, payload := [7, 8] }

/-- A fresh session that has taken one datagram carrying a complete two-byte
message: its receive queue holds that message. -/
def sessionWithMsg : KCPSession :=
  { KCPSession.create 1 false with
    mKcp := ikcp_input (ikcp_create 1) twoByteDatagram }

/-- A fresh session that has taken one datagram carrying a complete
zero-length message: a message is receivable yet its peeked size is 0. -/
def sessionWithEmptyMsg : KCPSession :=
  { KCPSession.create 1 false with
    mKcp := ikcp_input (ikcp_create 1) emptyDatagram }

/-- A fresh session switched to async mode with a receive callback
installed. -/
def asyncSession : KCPSession :=
  ((KCPSession.create 1 false).setAsyncMode true).setReceiveCallback true

/-- A fresh session (no output function installed) with a one-byte message
queued to send: its next flush emits a datagram. -/
def pendingSendSession : KCPSession :=
  (KCPSession.create 1 false).send [7]

/-- A fresh session with an output function installed and a one-byte message
queued to send. -/
def pendingSendSessionOut : KCPSession :=
  ((KCPSession.create 1 false).setOutputFunction true).send [7]

/-! ## Codec lemmas -/

theorem decode32_encode32 (n : Nat) (h : n < 4294967296) :
    decode32 (n % 256) (n / 256 % 256) (n / 65536 % 256) (n / 16777216 % 256)
      = n := by
  unfold decode32
  omega

theorem decode16_encode16 (n : Nat) (h : n < 65536) :
    decode16 (n % 256) (n / 256 % 256) = n := by
  unfold decode16
  omega

/-- Decoding inverts encoding on a segment whose fields fit their wire
widths and whose identifier matches the receiving session. -/
theorem decodeSeg_encodeSeg (s : Segment)
    (hconv : s.conv < 4294967296) (hcmd : s.cmd < 256) (hfrg : s.frg < 256)
    (hwnd : s.wnd < 65536) (hts : s.ts < 4294967296) (hsn : s.sn < 4294967296)
    (huna : s.una < 4294967296) (hlen : s.payload.length < 4294967296) :
    decodeSeg s.conv (encodeSeg s) = some s := by
  obtain ⟨conv, cmd, frg, wnd, ts, sn, una, payload⟩ := s
  simp only at hconv hcmd hfrg hwnd hts hsn huna hlen
  simp only [encodeSeg, encode32, encode16, List.cons_append, List.nil_append,
    decodeSeg, decode32_encode32 _ hconv, decode32_encode32 _ hts,
    decode32_encode32 _ hsn, decode32_encode32 _ huna,
    decode32_encode32 _ hlen, decode16_encode16 _ hwnd,
    Nat.mod_eq_of_lt hcmd, Nat.mod_eq_of_lt hfrg]
  simp

/-! ## Fragmentation lemmas -/

theorem chunksGo_flatten (m : Nat) :
    ∀ (fuel : Nat) (l : List Byte), l.length ≤ fuel →
      (chunksGo fuel m l).flatten = l := by
  intro fuel
  induction fuel with
  | zero =>
    intro l hl
    match l with
    | [] => simp [chunksGo]
    | x :: xs => simp at hl
  | succ fuel ih =>
    intro l hl
    match l with
    | [] => simp [chunksGo]
    | x :: xs =>
      simp only [chunksGo, List.flatten_cons]
      have hd : ((x :: xs).drop (m + 1)).length ≤ fuel := by
        rw [List.length_drop]
        simp only [List.length_cons] at hl ⊢
        omega
      rw [ih ((x :: xs).drop (m + 1)) hd]
      exact List.take_append_drop (m + 1) (x :: xs)

theorem fragPayloads_flatten (mss : Nat) (data : List Byte) :
    (fragPayloads mss data).flatten = data := by
  unfold fragPayloads chunks
  by_cases h : data = []
  · simp [h]
  · simp [h, chunksGo_flatten (mss - 1) data.length data le_rfl]

theorem fragPayloads_ne_nil (mss : Nat) (data : List Byte) :
    fragPayloads mss data ≠ [] := by
  unfold fragPayloads chunks
  by_cases h : data = []
  · simp [h]
  · match data with
    | [] => simp at h
    | x :: xs => simp [chunksGo]

theorem chunksGo_mem_length (m : Nat) :
    ∀ (fuel : Nat) (l : List Byte) (c : List Byte),
      c ∈ chunksGo fuel m l → c.length ≤ m + 1 := by
  intro fuel
  induction fuel with
  | zero =>
    intro l c hc
    match l with
    | [] => simp [chunksGo] at hc
    | x :: xs => simp [chunksGo] at hc
  | succ fuel ih =>
    intro l c hc
    match l with
    | [] => simp [chunksGo] at hc
    | x :: xs =>
      simp only [chunksGo, List.mem_cons] at hc
      rcases hc with h | h
      · subst h
        simp [List.length_take_le (m + 1) (x :: xs)]
      · exact ih _ c h

theorem fragPayloads_mem_length (mss : Nat) (data : List Byte)
    (hmss : 0 < mss) (c : List Byte) (hc : c ∈ fragPayloads mss data) :
    c.length ≤ mss := by
  unfold fragPayloads chunks at hc
  by_cases h : data = []
  · simp [h] at hc
    simp [hc]
  · simp only [h, if_false] at hc
    have := chunksGo_mem_length (mss - 1) data.length data c hc
    omega

theorem tagFrags_map_payload (conv : Nat) (cs : List (List Byte)) :
    (tagFrags conv cs).map Segment.payload = cs := by
  induction cs with
  | nil => simp [tagFrags]
  | cons c cs ih => simp [tagFrags, ih]

theorem tagFrags_map_frg (conv : Nat) (cs : List (List Byte)) :
    (tagFrags conv cs).map Segment.frg = (List.range cs.length).reverse := by
  induction cs with
  | nil => simp [tagFrags]
  | cons c cs ih => simp [tagFrags, ih, List.range_succ]

/-! ## Receive and probe lemmas -/

theorem hasReceivable_nil (s : KCPSession) (h : s.mKcp.rcvQueue = []) :
    s.hasReceivablePacket = false := by
  simp [KCPSession.hasReceivablePacket, ikcp_peeksize, h]

theorem hasReceivable_cons (s : KCPSession) (m : List Byte)
    (rest : List (List Byte)) (h : s.mKcp.rcvQueue = m :: rest) :
    s.hasReceivablePacket = true := by
  simp [KCPSession.hasReceivablePacket, ikcp_peeksize, h]

theorem nextPacketSize_nil (s : KCPSession) (h : s.mKcp.rcvQueue = []) :
    s.nextPacketSize = 0 := by
  simp [KCPSession.nextPacketSize, ikcp_peeksize, h]

theorem nextPacketSize_cons (s : KCPSession) (m : List Byte)
    (rest : List (List Byte)) (h : s.mKcp.rcvQueue = m :: rest) :
    s.nextPacketSize = m.length := by
  simp [KCPSession.nextPacketSize, ikcp_peeksize, h]

theorem receive_nil (s : KCPSession) (h : s.mKcp.rcvQueue = []) :
    s.receive = .ok (s, { data := none, size := 0 }) := by
  simp [KCPSession.receive, receiveCore, ikcp_peeksize, ikcp_recv, h]

theorem receive_cons (s : KCPSession) (m : List Byte)
    (rest : List (List Byte)) (h : s.mKcp.rcvQueue = m :: rest) :
    s.receive = .ok ({ s with mKcp := { s.mKcp with rcvQueue := rest } },
      { data := some m, size := m.length }) := by
  simp [KCPSession.receive, receiveCore, ikcp_peeksize, ikcp_recv, h]

/-! ## Input and feed lemmas -/

theorem input_nonasync (s : KCPSession) (bytes : List Byte)
    (h : s.mAsyncMode = false) :
    s.input bytes = .ok ({ s with mKcp := ikcp_input s.mKcp bytes }, []) := by
  simp [KCPSession.input, h]

theorem feedAll_nonasync (bs : List (List Byte)) :
    ∀ s : KCPSession, s.mAsyncMode = false →
      feedAll s bs = .ok { s with mKcp := List.foldl ikcp_input s.mKcp bs } := by
  induction bs with
  | nil => intro s h; simp [feedAll]
  | cons b rest ih =>
    intro s h
    rw [feedAll, input_nonasync s b h]
    exact ih { s with mKcp := ikcp_input s.mKcp b } h

/-! ## Output routing lemmas -/

theorem routeOutput_installed (l : List (List Byte)) :
    routeOutput true l = some (l.map (fun b => ((b, b.length), 0))) := by
  induction l with
  | nil => simp [routeOutput]
  | cons b rest ih => simp [routeOutput, mOutputFuncRaw, ih]

theorem routeOutput_missing (l : List (List Byte)) (h : l ≠ []) :
    routeOutput false l = none := by
  match l with
  | [] => simp at h
  | b :: rest => simp [routeOutput, mOutputFuncRaw]

theorem flush_installed (s : KCPSession) (h : s.mOutputFunc = true) :
    s.flush = some ({ s with mKcp := (ikcp_flush s.mKcp).st },
      (ikcp_flush s.mKcp).out.map (fun b => ((b, b.length), 0))) := by
  simp [KCPSession.flush, h, routeOutput_installed]

theorem update_installed (s : KCPSession) (t : Nat) (h : s.mOutputFunc = true) :
    s.update t = some ({ s with mKcp := (ikcp_update s.mKcp t).st },
      (ikcp_update s.mKcp t).out.map (fun b => ((b, b.length), 0))) := by
  simp [KCPSession.update, h, routeOutput_installed]

/-! ## Admission lemmas -/

theorem admitQueue_all (rn rw cur conv : Nat) (cs : List (List Byte)) :
    ∀ (nxt lim : Nat), nxt + cs.length ≤ lim →
      admitQueue rn rw cur (tagFrags conv cs) nxt lim =
        ⟨sentSegs conv rw cur rn nxt cs, [], nxt + cs.length⟩ := by
  induction cs with
  | nil => intro nxt lim h; simp [tagFrags, admitQueue, sentSegs]
  | cons c cs ih =>
    intro nxt lim h
    simp only [tagFrags, admitQueue, sentSegs, List.length_cons]
    rw [if_pos (by simp at h; omega)]
    rw [ih (nxt + 1) lim (by simp at h ⊢; omega)]
    simp [sentSegs]
    omega

/-! ## Single-step receiver lemmas -/

/-- A data segment arriving exactly at the next expected sequence number on
a session with an empty receive buffer and an empty in-flight buffer: it is
acknowledged, drained immediately, and either completes a message (remaining
fragment count 0) or extends the reassembly accumulator. -/
theorem ikcp_input_push_next (k : KcpState) (frg w t u : Nat) (p : List Byte)
    (hconv : k.conv < 4294967296) (hfrg : frg < 256) (hw : w < 65536)
    (ht : t < 4294967296) (hsn : k.rcvNext < 4294967296) (hu : u < 4294967296)
    (hp : p.length < 4294967296)
    (hbuf : k.rcvBuf = []) (hsb : k.sndBuf = []) (hwnd : 0 < k.rcvWnd) :
    ikcp_input k (encodeSeg
      { conv := k.conv, cmd := cmdPush, frg := frg, wnd := w, ts := t,
        sn := k.rcvNext, una := u, payload := p }) =
    { k with rmtWnd := w, sndBuf := [], sndUna := k.sndNext, rcvBuf := [],
             acklist := k.acklist ++ [(k.rcvNext, t)],
             rcvNext := k.rcvNext + 1,
             fragAcc := if frg = 0 then [] else k.fragAcc ++ [p],
             rcvQueue := if frg = 0 then
               k.rcvQueue ++ [(k.fragAcc ++ [p]).flatten]
             else k.rcvQueue } := by
  have hdec := decodeSeg_encodeSeg
    { conv := k.conv, cmd := cmdPush, frg := frg, wnd := w, ts := t,
      sn := k.rcvNext, una := u, payload := p }
    hconv (by norm_num [cmdPush]) hfrg hw ht hsn hu hp
  unfold ikcp_input
  rw [hdec]
  have h1 : ¬ (k.rcvNext + k.rcvWnd ≤ k.rcvNext) := by omega
  by_cases hf : frg = 0 <;>
    simp [parseUna, parseData, insertSorted, drainBuf, hbuf, hsb, h1, hf,
      cmdPush]

/-- A data segment whose sequence number is below the next expected one
(an already delivered duplicate): it is acknowledged and then discarded,
leaving the receive side unchanged. -/
theorem ikcp_input_push_old (k : KcpState) (frg w t u sn : Nat) (p : List Byte)
    (hconv : k.conv < 4294967296) (hfrg : frg < 256) (hw : w < 65536)
    (ht : t < 4294967296) (hsn : sn < 4294967296) (hu : u < 4294967296)
    (hp : p.length < 4294967296)
    (hold : sn < k.rcvNext) (hsb : k.sndBuf = []) :
    ikcp_input k (encodeSeg
      { conv := k.conv, cmd := cmdPush, frg := frg, wnd := w, ts := t,
        sn := sn, una := u, payload := p }) =
    { k with rmtWnd := w, sndBuf := [], sndUna := k.sndNext,
             acklist := k.acklist ++ [(sn, t)] } := by
  have hdec := decodeSeg_encodeSeg
    { conv := k.conv, cmd := cmdPush, frg := frg, wnd := w, ts := t,
      sn := sn, una := u, payload := p }
    hconv (by norm_num [cmdPush]) hfrg hw ht hsn hu hp
  unfold ikcp_input
  rw [hdec]
  have h1 : ¬ (k.rcvNext + k.rcvWnd ≤ sn) := by omega
  simp [parseUna, parseData, hsb, h1, hold, cmdPush]

/-! ## Multi-step feed lemmas -/

/-- Feeding the encoded fragments of one message, in order, starting exactly
at the next expected sequence number of a receiver with empty receive and
in-flight buffers: every fragment is acknowledged, the expected sequence
number advances past the run, and the reassembled message (the accumulator
plus all fragment payloads, flattened) is appended to the receive queue. -/
theorem feed_fragments (cs : List (List Byte)) (hcs : cs ≠ []) :
    ∀ (k : KcpState) (c0 w t u n : Nat),
      k.conv = c0 → k.rcvNext = n →
      c0 < 4294967296 → cs.length ≤ 256 → w < 65536 → t < 4294967296 →
      n + cs.length ≤ 4294967296 → u < 4294967296 →
      (∀ c ∈ cs, c.length < 4294967296) →
      k.rcvBuf = [] → k.sndBuf = [] → 0 < k.rcvWnd →
      List.foldl ikcp_input k ((sentSegs c0 w t u n cs).map encodeSeg) =
      { k with rmtWnd := w, sndBuf := [], sndUna := k.sndNext, rcvBuf := [],
               acklist := k.acklist ++ ackEntries n t cs.length,
               rcvNext := n + cs.length, fragAcc := [],
               rcvQueue := k.rcvQueue ++ [(k.fragAcc ++ cs).flatten] } := by
  induction cs with
  | nil => exact absurd rfl hcs
  | cons c cs ih =>
    intro k c0 w t u n hc hn hconv hlen hw ht hsnb hu hp hbuf hsb hwnd
    subst hc
    subst hn
    simp only [sentSegs, List.map_cons, List.foldl_cons]
    rw [ikcp_input_push_next k cs.length w t u c hconv
      (by simp at hlen; omega) hw ht (by simp at hsnb; omega) hu
      (hp c (by simp)) hbuf hsb hwnd]
    by_cases hnil : cs = []
    · subst hnil
      simp [ackEntries, sentSegs]
    · have hf : ¬ (cs.length = 0) := by
        simp [List.length_eq_zero]
        exact hnil
      rw [if_neg hf, if_neg hf]
      rw [ih hnil _ k.conv w t u (k.rcvNext + 1) (by simp) (by simp)
        hconv (by simp at hlen; omega) hw ht (by simp at hsnb; omega) hu
        (fun d hd => hp d (by simp [hd])) (by simp) (by simp) (by simp [hwnd])]
      simp [ackEntries, List.append_assoc]
      omega

/-- Feeding encoded data segments that all lie strictly below the next
expected sequence number (a full replay of already delivered fragments):
every segment is re-acknowledged and discarded; the receive side is
unchanged. -/
theorem feed_replay (cs : List (List Byte)) (hcs : cs ≠ []) :
    ∀ (k : KcpState) (c0 w t u n : Nat),
      k.conv = c0 →
      c0 < 4294967296 → cs.length ≤ 256 → w < 65536 → t < 4294967296 →
      n + cs.length ≤ 4294967296 → u < 4294967296 →
      (∀ c ∈ cs, c.length < 4294967296) →
      n + cs.length ≤ k.rcvNext → k.sndBuf = [] →
      List.foldl ikcp_input k ((sentSegs c0 w t u n cs).map encodeSeg) =
      { k with rmtWnd := w, sndBuf := [], sndUna := k.sndNext,
               acklist := k.acklist ++ ackEntries n t cs.length } := by
  induction cs with
  | nil => exact absurd rfl hcs
  | cons c cs ih =>
    intro k c0 w t u n hc hconv hlen hw ht hsnb hu hp hold hsb
    subst hc
    simp only [sentSegs, List.map_cons, List.foldl_cons]
    rw [ikcp_input_push_old k cs.length w t u n c hconv
      (by simp at hlen; omega) hw ht (by simp at hsnb; omega) hu
      (hp c (by simp)) (by simp at hold; omega) hsb]
    by_cases hnil : cs = []
    · subst hnil
      simp [ackEntries, sentSegs]
    · rw [ih hnil _ k.conv w t u (n + 1) (by simp)
        hconv (by simp at hlen; omega) hw ht (by simp at hsnb; omega) hu
        (fun d hd => hp d (by simp [hd])) (by simp at hold ⊢; omega) (by simp)]
      simp [ackEntries, List.append_assoc]

/-- Flushing a state whose send queue holds exactly the tagged fragments of
one message, with no pending acknowledgments, and whose window admits them
all: every fragment is admitted and emitted, one encoded segment per sink
call. -/
theorem ikcp_flush_queue_only (k : KcpState) (cs : List (List Byte))
    (hq : k.sndQueue = tagFrags k.conv cs) (hack : k.acklist = [])
    (hlim : k.sndNext + cs.length ≤ k.sndUna + effectiveWnd k) :
    ikcp_flush k =
      ⟨{ k with acklist := [],
                sndQueue := [],
                sndBuf := k.sndBuf ++
                  sentSegs k.conv k.rcvWnd k.current k.rcvNext k.sndNext cs,
                sndNext := k.sndNext + cs.length },
       (sentSegs k.conv k.rcvWnd k.current k.rcvNext k.sndNext cs).map
         encodeSeg⟩ := by
  unfold ikcp_flush
  rw [hq, hack, admitQueue_all k.rcvNext k.rcvWnd k.current k.conv cs
    k.sndNext (k.sndUna + effectiveWnd k) hlim]
  simp

/-! ## Claim theorems -/

/-- C2: receive returns either a complete reassembled message or an empty
result.  When no message is available it returns a Packet with null data and
size 0 and leaves the session unchanged; when a message is available it
returns a Packet whose size equals the length of the message and whose
buffer holds exactly the message bytes, and the message is removed from the
internal queue (ownership transfers to the caller, no aliasing with
internal buffers). -/
theorem receive_message_or_empty (s : KCPSession) :
    (s.mKcp.rcvQueue = [] →
      s.receive = .ok (s, { data := none, size := 0 })) ∧
    (∀ m rest, s.mKcp.rcvQueue = m :: rest →
      s.receive = .ok
        ({ s with mKcp := { s.mKcp with rcvQueue := rest } },
         { data := some m, size := m.length })) :=
  ⟨fun h => receive_nil s h, fun m rest h => receive_cons s m rest h⟩

/-- Witness for C2 at concrete states: a session holding the message [7, 8]
and a fresh session holding nothing. -/
theorem receive_message_or_empty_witness :
    (sessionWithMsg.mKcp.rcvQueue = [[7, 8]] ∧
     sessionWithMsg.receive = .ok
       ({ sessionWithMsg with
          mKcp := { sessionWithMsg.mKcp with rcvQueue := [] } },
        { data := some [7, 8], size := 2 })) ∧
    ((KCPSession.create 1 false).mKcp.rcvQueue = [] ∧
     (KCPSession.create 1 false).receive =
       .ok (KCPSession.create 1 false, { data := none, size := 0 })) :=
  ⟨⟨by decide, (receive_message_or_empty sessionWithMsg).2 [7, 8] []
      (by decide)⟩,
   ⟨rfl, (receive_message_or_empty (KCPSession.create 1 false)).1 rfl⟩⟩

/-- C3: the receive body throws the internal inconsistency exception exactly
when the int returned by the dequeue differs from the previously peeked
size, a fatal condition distinguishable from ordinary transport results;
on every state of the engine model (where dequeue and peek read the same
queue, i.e. every consistent state) receive never throws. -/
theorem receive_internal_inconsistency (s : KCPSession) :
    (∀ (pk rr : Int) (d : List Byte), 0 ≤ pk → rr ≠ pk →
      receiveCore pk rr d = .error "receive: Internal inconsistency error!") ∧
    (∃ t p, s.receive = .ok (t, p)) := by
  constructor
  · intro pk rr d hpk hne
    have hcond : rr ≠ (((if 0 ≤ pk then pk.toNat else 0 : Nat)) : Int) := by
      rw [if_pos hpk, Int.toNat_of_nonneg hpk]
      exact hne
    unfold receiveCore
    rw [if_pos hpk, if_pos hcond]
  · match hq : s.mKcp.rcvQueue with
    | [] => exact ⟨s, _, receive_nil s hq⟩
    | m :: rest => exact ⟨_, _, receive_cons s m rest hq⟩

/-- Witness for C3: an inconsistent pair of engine results (peeked 5,
dequeued 3) produces the exception; a concrete session returns without
exception. -/
theorem receive_internal_inconsistency_witness :
    ((0 : Int) ≤ 5 ∧ (3 : Int) ≠ 5 ∧
     receiveCore 5 3 [] = .error "receive: Internal inconsistency error!") ∧
    (∃ t p, sessionWithMsg.receive = .ok (t, p)) :=
  ⟨⟨by decide, by decide,
    (receive_internal_inconsistency sessionWithMsg).1 5 3 [] (by decide)
      (by decide)⟩,
   (receive_internal_inconsistency sessionWithMsg).2⟩

/-- C4: send succeeds unconditionally: for every session state and byte
sequence it admits the message into the send queue as one or more fragments
with descending remaining-fragment counts ending at 0, the fragment
payloads concatenate back to exactly the message, and no failure is
surfaced (send is a total function into a session state, with no error
component in its type). -/
theorem send_unconditional (s : KCPSession) (data : List Byte) :
    (s.send data).mKcp.sndQueue =
      s.mKcp.sndQueue ++
        tagFrags s.mKcp.conv (fragPayloads s.mKcp.mss data) ∧
    ((tagFrags s.mKcp.conv (fragPayloads s.mKcp.mss data)).map
      Segment.payload).flatten = data ∧
    (tagFrags s.mKcp.conv (fragPayloads s.mKcp.mss data)).map Segment.frg =
      (List.range (fragPayloads s.mKcp.mss data).length).reverse ∧
    tagFrags s.mKcp.conv (fragPayloads s.mKcp.mss data) ≠ [] := by
  refine ⟨rfl, ?_, tagFrags_map_frg _ _, ?_⟩
  · rw [tagFrags_map_payload, fragPayloads_flatten]
  · have h := fragPayloads_ne_nil s.mKcp.mss data
    cases hch : fragPayloads s.mKcp.mss data with
    | nil => exact absurd hch h
    | cons c cs => simp [tagFrags]

/-- C5 counterexample: nextPacketSize cannot report absence distinguishably.
A reachable state holding a receivable zero-length message returns the very
same value 0 that a fresh state with nothing receivable returns, so the
result is not distinguishable as none; only hasReceivablePacket separates
the two states (exactly as the source comment at src/kcplus.hpp lines
122-124 warns). -/
theorem nextPacketSize_zero_ambiguous :
    sessionWithEmptyMsg.hasReceivablePacket = true ∧
    (KCPSession.create 1 false).hasReceivablePacket = false ∧
    sessionWithEmptyMsg.nextPacketSize = 0 ∧
    (KCPSession.create 1 false).nextPacketSize = 0 := by decide

/-- C5 amended: nextPacketSize returns the length of the next receivable
message when one exists and 0 otherwise — a value not distinguishable from
a zero-length message, so absence is probed with hasReceivablePacket, which
returns true exactly when a message is queued; both probes are read-only
functions of the session state (they take no ownership and return no
updated state), so probing does not change which messages are subsequently
receivable. -/
theorem probes_report_without_removing (s : KCPSession) :
    (∀ m rest, s.mKcp.rcvQueue = m :: rest →
      s.hasReceivablePacket = true ∧ s.nextPacketSize = m.length) ∧
    (s.mKcp.rcvQueue = [] →
      s.hasReceivablePacket = false ∧ s.nextPacketSize = 0) :=
  ⟨fun m rest h =>
    ⟨hasReceivable_cons s m rest h, nextPacketSize_cons s m rest h⟩,
   fun h => ⟨hasReceivable_nil s h, nextPacketSize_nil s h⟩⟩

/-- Witness for the amended C5 at concrete states. -/
theorem probes_report_without_removing_witness :
    (sessionWithMsg.mKcp.rcvQueue = [[7, 8]] ∧
     sessionWithMsg.hasReceivablePacket = true ∧
     sessionWithMsg.nextPacketSize = 2) ∧
    ((KCPSession.create 1 false).mKcp.rcvQueue = [] ∧
     (KCPSession.create 1 false).hasReceivablePacket = false ∧
     (KCPSession.create 1 false).nextPacketSize = 0) :=
  ⟨⟨by decide,
    ((probes_report_without_removing sessionWithMsg).1 [7, 8] []
      (by decide)).1,
    ((probes_report_without_removing sessionWithMsg).1 [7, 8] []
      (by decide)).2⟩,
   ⟨rfl, ((probes_report_without_removing (KCPSession.create 1 false)).2
      rfl).1,
    ((probes_report_without_removing (KCPSession.create 1 false)).2
      rfl).2⟩⟩

/-- C6: with async mode on and a receive callback installed, input applies
the inbound bytes and, when a completed message is then receivable, invokes
the callback before returning (the invocation trace of the call holds
exactly that message, dequeued synchronously); when no message is
receivable the callback is not invoked (empty trace). -/
theorem async_input_invokes_callback (s : KCPSession) (bytes : List Byte)
    (hasync : s.mAsyncMode = true) (hcb : s.mReceiveFunc = true) :
    (∀ m rest, (ikcp_input s.mKcp bytes).rcvQueue = m :: rest →
      s.input bytes = .ok
        ({ s with mKcp := { ikcp_input s.mKcp bytes with rcvQueue := rest } },
         [{ data := some m, size := m.length }])) ∧
    ((ikcp_input s.mKcp bytes).rcvQueue = [] →
      s.input bytes = .ok ({ s with mKcp := ikcp_input s.mKcp bytes }, [])) := by
  obtain ⟨k0, f0, a0, r0⟩ := s
  simp only at hasync hcb
  subst hasync
  subst hcb
  constructor
  · intro m rest h
    have h1 : (⟨ikcp_input k0 bytes, f0, true, true⟩ :
        KCPSession).hasReceivablePacket = true := hasReceivable_cons _ m rest h
    have h2 := receive_cons (⟨ikcp_input k0 bytes, f0, true, true⟩ :
      KCPSession) m rest h
    simp only [KCPSession.input, h1, h2]
    simp
  · intro h
    have h1 : (⟨ikcp_input k0 bytes, f0, true, true⟩ :
        KCPSession).hasReceivablePacket = false := hasReceivable_nil _ h
    simp only [KCPSession.input, h1]
    simp

/-- Witness for C6: the async fixture session receives a datagram completing
the one-byte message [7]; the callback trace holds exactly that message. -/
theorem async_input_invokes_callback_witness :
    (asyncSession.mAsyncMode = true ∧ asyncSession.mReceiveFunc = true ∧
     (ikcp_input asyncSession.mKcp pushDatagram).rcvQueue = [[7]]) ∧
    asyncSession.input pushDatagram = .ok
      ({ asyncSession with
         mKcp := { ikcp_input asyncSession.mKcp pushDatagram with
                   rcvQueue := [] } },
       [{ data := some [7], size := 1 }]) :=
  ⟨⟨rfl, rfl, by decide⟩,
   (async_input_invokes_callback asyncSession pushDatagram rfl rfl).1 [7] []
     (by decide)⟩

/-- C8: each runtime configuration setter updates only its own tunable:
setNodelay, setInternalInterval, setFastResendThreshold and
setCongestionControl each set exactly one of the four nodelay, interval,
fast-resend and congestion-control settings (for the int setters given a
non-negative argument, since the engine treats negative values as the
leave-unchanged sentinel) and leave the other three and both window sizes
unchanged; setMaxSendWindowSize leaves the receive window (and the four
tunables) unchanged, and setMaxReceiveWindowSize leaves the send window
(and the four tunables) unchanged. -/
theorem config_setters_disjoint (s : KCPSession) (b c : Bool) (n r w v : Int)
    (hn : 0 ≤ n) (hr : 0 ≤ r) :
    ((s.setNodelay b).mKcp.nodelay = (if b then 1 else 0) ∧
     (s.setNodelay b).mKcp.interval = s.mKcp.interval ∧
     (s.setNodelay b).mKcp.fastresend = s.mKcp.fastresend ∧
     (s.setNodelay b).mKcp.nc = s.mKcp.nc ∧
     (s.setNodelay b).mKcp.sndWnd = s.mKcp.sndWnd ∧
     (s.setNodelay b).mKcp.rcvWnd = s.mKcp.rcvWnd) ∧
    ((s.setInternalInterval n).mKcp.interval = n.toNat ∧
     (s.setInternalInterval n).mKcp.nodelay = s.mKcp.nodelay ∧
     (s.setInternalInterval n).mKcp.fastresend = s.mKcp.fastresend ∧
     (s.setInternalInterval n).mKcp.nc = s.mKcp.nc ∧
     (s.setInternalInterval n).mKcp.sndWnd = s.mKcp.sndWnd ∧
     (s.setInternalInterval n).mKcp.rcvWnd = s.mKcp.rcvWnd) ∧
    ((s.setFastResendThreshold r).mKcp.fastresend = r.toNat ∧
     (s.setFastResendThreshold r).mKcp.nodelay = s.mKcp.nodelay ∧
     (s.setFastResendThreshold r).mKcp.interval = s.mKcp.interval ∧
     (s.setFastResendThreshold r).mKcp.nc = s.mKcp.nc ∧
     (s.setFastResendThreshold r).mKcp.sndWnd = s.mKcp.sndWnd ∧
     (s.setFastResendThreshold r).mKcp.rcvWnd = s.mKcp.rcvWnd) ∧
    ((s.setCongestionControl c).mKcp.nc = (if c then 0 else 1) ∧
     (s.setCongestionControl c).mKcp.nodelay = s.mKcp.nodelay ∧
     (s.setCongestionControl c).mKcp.interval = s.mKcp.interval ∧
     (s.setCongestionControl c).mKcp.fastresend = s.mKcp.fastresend ∧
     (s.setCongestionControl c).mKcp.sndWnd = s.mKcp.sndWnd ∧
     (s.setCongestionControl c).mKcp.rcvWnd = s.mKcp.rcvWnd) ∧
    ((s.setMaxSendWindowSize w).mKcp.rcvWnd = s.mKcp.rcvWnd ∧
     (s.setMaxSendWindowSize w).mKcp.nodelay = s.mKcp.nodelay ∧
     (s.setMaxSendWindowSize w).mKcp.interval = s.mKcp.interval ∧
     (s.setMaxSendWindowSize w).mKcp.fastresend = s.mKcp.fastresend ∧
     (s.setMaxSendWindowSize w).mKcp.nc = s.mKcp.nc) ∧
    ((s.setMaxReceiveWindowSize v).mKcp.sndWnd = s.mKcp.sndWnd ∧
     (s.setMaxReceiveWindowSize v).mKcp.nodelay = s.mKcp.nodelay ∧
     (s.setMaxReceiveWindowSize v).mKcp.interval = s.mKcp.interval ∧
     (s.setMaxReceiveWindowSize v).mKcp.fastresend = s.mKcp.fastresend ∧
     (s.setMaxReceiveWindowSize v).mKcp.nc = s.mKcp.nc) := by
  cases b <;> cases c <;>
    simp [KCPSession.setNodelay, KCPSession.setInternalInterval,
      KCPSession.setFastResendThreshold, KCPSession.setCongestionControl,
      KCPSession.setMaxSendWindowSize, KCPSession.setMaxReceiveWindowSize,
      KCPSession.setPropertiesPrivate, ikcp_nodelay, ikcp_wndsize,
      NotChanged, hn, hr]

/-- Witness for C8 at concrete inputs (interval 20, fast resend 2, window
size 64 on a fresh session). -/
theorem config_setters_disjoint_witness :
    (0 : Int) ≤ 20 ∧ (0 : Int) ≤ 2 ∧
    ((KCPSession.create 1 false).setInternalInterval 20).mKcp.interval = 20 ∧
    ((KCPSession.create 1 false).setMaxSendWindowSize 64).mKcp.rcvWnd =
      (KCPSession.create 1 false).mKcp.rcvWnd :=
  ⟨by decide, by decide,
   ((config_setters_disjoint (KCPSession.create 1 false) true false 20 2 64
      64 (by decide) (by decide)).2.1).1,
   (((config_setters_disjoint (KCPSession.create 1 false) true false 20 2 64
      64 (by decide) (by decide)).2.2.2.2.1)).1⟩

/-- C9: any emission requires a previously installed non-null output
function: the constructor initializes the stored output function to null,
the raw adapter asserts it is non-null before invoking it (and forwards the
bytes unchanged, reporting success, when it is); a flush that must emit
while the function is still null is an assertion failure (none), never a
silent drop. -/
theorem output_function_asserted (conv : Nat) (residue : Bool)
    (s : KCPSession) (b : List Byte) (hnull : s.mOutputFunc = false)
    (hemit : (ikcp_flush s.mKcp).out ≠ []) :
    (KCPSession.create conv residue).mOutputFunc = false ∧
    mOutputFuncRaw false b = none ∧
    (∀ bytes, mOutputFuncRaw true bytes = some ((bytes, bytes.length), 0)) ∧
    s.flush = none := by
  refine ⟨rfl, rfl, fun bytes => rfl, ?_⟩
  simp only [KCPSession.flush, hnull, routeOutput_missing _ hemit]

/-- Witness for C9: a fresh session with a pending one-byte message and no
output function installed; its flush hits the assert. -/
theorem output_function_asserted_witness :
    (pendingSendSession.mOutputFunc = false ∧
     (ikcp_flush pendingSendSession.mKcp).out ≠ []) ∧
    ((KCPSession.create 2 true).mOutputFunc = false ∧
     mOutputFuncRaw false [9] = none ∧
     (∀ bytes, mOutputFuncRaw true bytes = some ((bytes, bytes.length), 0)) ∧
     pendingSendSession.flush = none) :=
  ⟨⟨rfl, by decide⟩,
   output_function_asserted 2 true pendingSendSession [9] rfl (by decide)⟩

/-- C10 (code bug): the constructor does not initialize mAsyncMode, so a
freshly constructed session on which setAsyncMode was never called can
start with the indeterminate residue true; the same inbound datagram that a
residue-false session absorbs without invoking any callback then makes
input attempt the receive callback (throwing bad_function_call, as the
default-constructed callback is empty), contradicting the claim that the
callback is never invoked before setAsyncMode is called. -/
theorem uninitialized_async_mode_bug :
    (KCPSession.create 1 true).mAsyncMode = true ∧
    (KCPSession.create 1 true).input pushDatagram =
      .error "bad_function_call" ∧
    (KCPSession.create 1 false).input pushDatagram =
      .ok ({ KCPSession.create 1 false with
             mKcp := ikcp_input (ikcp_create 1) pushDatagram }, []) :=
  ⟨rfl, rfl, input_nonasync (KCPSession.create 1 false) pushDatagram rfl⟩

/-- Mapping each sink call back to its first argument recovers the emitted
datagrams. -/
theorem map_call_bytes (l : List (List Byte)) :
    List.map (fun call => call.1.1)
      (l.map (fun b : List Byte => ((b, b.length), (0 : Int)))) = l := by
  induction l with
  | nil => rfl
  | cons b t ih => simp only [List.map_cons, ih]

/-- C7: every outbound emission of a flush is handed to the installed output
sink synchronously, one full encoded segment per sink invocation (the
emitted datagram list is the encoding of a segment list, mapped one to
one), with the bytes and the length forwarded unchanged, and the adapter
reports success (0) to the engine for every invocation, never retrying. -/
theorem output_sink_one_segment_per_call (s : KCPSession)
    (hf : s.mOutputFunc = true) :
    ∃ segs : List Segment,
      (ikcp_flush s.mKcp).out = segs.map encodeSeg ∧
      s.flush = some ({ s with mKcp := (ikcp_flush s.mKcp).st },
        ((ikcp_flush s.mKcp).out).map (fun b => ((b, b.length), 0))) ∧
      (∀ bytes, mOutputFuncRaw true bytes = some ((bytes, bytes.length), 0)) :=
  ⟨(s.mKcp.acklist.map (fun a =>
      ({ conv := s.mKcp.conv, cmd := cmdAck, frg := 0, wnd := s.mKcp.rcvWnd,
         ts := a.2, sn := a.1, una := s.mKcp.rcvNext, payload := [] } :
        Segment))) ++
    (admitQueue s.mKcp.rcvNext s.mKcp.rcvWnd s.mKcp.current s.mKcp.sndQueue
      s.mKcp.sndNext (s.mKcp.sndUna + effectiveWnd s.mKcp)).admitted,
   rfl, flush_installed s hf, fun _ => rfl⟩

/-- Witness for C7: a session with an installed sink and a pending one-byte
message. -/
theorem output_sink_one_segment_per_call_witness :
    pendingSendSessionOut.mOutputFunc = true ∧
    (∃ segs : List Segment,
      (ikcp_flush pendingSendSessionOut.mKcp).out = segs.map encodeSeg ∧
      pendingSendSessionOut.flush = some
        ({ pendingSendSessionOut with
           mKcp := (ikcp_flush pendingSendSessionOut.mKcp).st },
         ((ikcp_flush pendingSendSessionOut.mKcp).out).map
           (fun b => ((b, b.length), 0))) ∧
      (∀ bytes, mOutputFuncRaw true bytes = some ((bytes, bytes.length), 0))) :=
  ⟨rfl, output_sink_one_segment_per_call pendingSendSessionOut rfl⟩


/-- C1: round trip, exactly once.  For a connection identifier within the
32-bit wire width and a message within the configured limits (with
congestion control disabled through the public setter, the configured send
window admits up to min(sndWnd, rmtWnd) = 32 fragments), sending M on
session A and driving A with update emits a list of datagrams through the
output sink; feeding every emitted datagram, in order, into fresh session B
makes receive on B return exactly the message M once: the first receive
yields a packet carrying M with size = length of M, the next receive yields
the empty packet, and even after feeding every emitted datagram into B a
second time (as a retransmitting sender would), receive still yields the
empty packet — M is never delivered twice. -/
theorem round_trip_exactly_once (conv : Nat) (M : List Byte)
    (hconv : conv < 4294967296)
    (hfrag : (fragPayloads defaultMss M).length ≤ 32) :
    ∃ A2 calls B1 B2 B3,
      ((((KCPSession.create conv false).setOutputFunction true
        ).setCongestionControl false).send M).update 0 = some (A2, calls) ∧
      feedAll (KCPSession.create conv false)
        (calls.map (fun call => call.1.1)) = .ok B1 ∧
      B1.receive = .ok (B2, { data := some M, size := M.length }) ∧
      B2.receive = .ok (B2, { data := none, size := 0 }) ∧
      feedAll B2 (calls.map (fun call => call.1.1)) = .ok B3 ∧
      B3.receive = .ok (B3, { data := none, size := 0 }) := by
  have hne : fragPayloads defaultMss M ≠ [] := fragPayloads_ne_nil _ _
  have hlen256 : (fragPayloads defaultMss M).length ≤ 256 := by omega
  have hplen : ∀ c ∈ fragPayloads defaultMss M, c.length < 4294967296 := by
    intro c hc
    have h := fragPayloads_mem_length defaultMss M (by norm_num [defaultMss])
      c hc
    have : c.length ≤ 1376 := by
      simpa [defaultMss] using h
    omega
  set A1 : KCPSession :=
    (((KCPSession.create conv false).setOutputFunction true
      ).setCongestionControl false).send M with hA1
  set bytes : List (List Byte) :=
    (sentSegs conv 128 0 0 0 (fragPayloads defaultMss M)).map encodeSeg
    with hbytes
  have hupdOut : (ikcp_update A1.mKcp 0).out = bytes := by
    rw [hA1, hbytes]
    unfold ikcp_update
    rw [ikcp_flush_queue_only _ (fragPayloads defaultMss M) rfl rfl
      (by show 0 + (fragPayloads defaultMss M).length ≤ 0 + 32
          omega)]
    rfl
  have hfeed := feed_fragments (fragPayloads defaultMss M) hne
    (KCPSession.create conv false).mKcp conv 128 0 0 0 rfl rfl hconv hlen256
    (by decide) (by decide) (by omega) (by decide) hplen rfl rfl
    (by norm_num [KCPSession.create, ikcp_create])
  rw [← hbytes] at hfeed
  set B1 : KCPSession := { KCPSession.create conv false with
    mKcp := List.foldl ikcp_input (KCPSession.create conv false).mKcp bytes }
    with hB1
  set B2 : KCPSession := { B1 with mKcp := { B1.mKcp with rcvQueue := [] } }
    with hB2
  have hq1 : B1.mKcp.rcvQueue = [M] := by
    rw [hB1]
    show (List.foldl ikcp_input (KCPSession.create conv false).mKcp
      bytes).rcvQueue = [M]
    rw [hfeed]
    show (KCPSession.create conv false).mKcp.rcvQueue ++
      [((KCPSession.create conv false).mKcp.fragAcc ++
        fragPayloads defaultMss M).flatten] = [M]
    simp [fragPayloads_flatten, KCPSession.create, ikcp_create]
  have hq2 : B2.mKcp.rcvQueue = [] := by rw [hB2]
  have hB2conv : B2.mKcp.conv = conv := by
    rw [hB2, hB1]
    show (List.foldl ikcp_input (KCPSession.create conv false).mKcp
      bytes).conv = conv
    rw [hfeed]
    simp [KCPSession.create, ikcp_create]
  have hB2next : B2.mKcp.rcvNext = (fragPayloads defaultMss M).length := by
    rw [hB2, hB1]
    show (List.foldl ikcp_input (KCPSession.create conv false).mKcp
      bytes).rcvNext = (fragPayloads defaultMss M).length
    rw [hfeed]
    simp
  have hB2snd : B2.mKcp.sndBuf = [] := by
    rw [hB2, hB1]
    show (List.foldl ikcp_input (KCPSession.create conv false).mKcp
      bytes).sndBuf = []
    rw [hfeed]
  have hreplay := feed_replay (fragPayloads defaultMss M) hne B2.mKcp conv
    128 0 0 0 hB2conv hconv hlen256 (by decide) (by decide) (by omega)
    (by decide) hplen (by omega) hB2snd
  rw [← hbytes] at hreplay
  have hq3 : (List.foldl ikcp_input B2.mKcp bytes).rcvQueue = [] := by
    rw [hreplay]
  refine ⟨{ A1 with mKcp := (ikcp_update A1.mKcp 0).st },
    bytes.map (fun b => ((b, b.length), 0)), B1, B2,
    { B2 with mKcp := List.foldl ikcp_input B2.mKcp bytes },
    ?_, ?_, ?_, ?_, ?_, ?_⟩
  · rw [update_installed A1 0 rfl, hupdOut]
  · rw [map_call_bytes bytes]
    exact feedAll_nonasync bytes (KCPSession.create conv false) rfl
  · exact receive_cons B1 M [] hq1
  · exact receive_nil B2 hq2
  · rw [map_call_bytes bytes]
    exact feedAll_nonasync bytes B2 rfl
  · exact receive_nil _ hq3

/-- Witness for C1 at a concrete connection identifier and message: conv 1,
message [3, 1, 4]. -/
theorem round_trip_exactly_once_witness :
    ((1 : Nat) < 4294967296 ∧
     (fragPayloads defaultMss [3, 1, 4]).length ≤ 32) ∧
    (∃ A2 calls B1 B2 B3,
      ((((KCPSession.create 1 false).setOutputFunction true
        ).setCongestionControl false).send [3, 1, 4]).update 0 =
          some (A2, calls) ∧
      feedAll (KCPSession.create 1 false)
        (calls.map (fun call => call.1.1)) = .ok B1 ∧
      B1.receive = .ok (B2, { data := some [3, 1, 4],
                              size := [3, 1, 4].length }) ∧
      B2.receive = .ok (B2, { data := none, size := 0 }) ∧
      feedAll B2 (calls.map (fun call => call.1.1)) = .ok B3 ∧
      B3.receive = .ok (B3, { data := none, size := 0 })) :=
  ⟨⟨by decide, by decide⟩,
   round_trip_exactly_once 1 [3, 1, 4] (by decide) (by decide)⟩

end KCPlus
